import Mathlib

/-!
Verification of the smailnail IMAP DSL core: the search-criteria compiler
(`BuildSearchCriteria` and its combinator helpers), the size/flag leaf
translators, the result-windowing arithmetic of `FetchMessages`, and the
batched MIME-content demultiplexing.  Go machine integers are embedded as
`Nat`/`Int` with explicit reduction modulo 2^32 / 2^64 where the Go code
computes in `uint32` / `int64`.  Fallible Go functions (returning
`(T, error)`) are embedded as `Except String T`.
-/

set_option maxRecDepth 10000

namespace Smailnail

/-- Two's-complement reading of an integer reduced modulo 2^64: this is the
value a Go `int64` holds after a (possibly overflowing) arithmetic
operation whose mathematical result is `x`. -/
def wrap64 (x : Int) : Int :=
  let m := x % (2 : Int) ^ 64
  if m < (2 : Int) ^ 63 then m else m - (2 : Int) ^ 64

/-- Reduction modulo 2^32: the value a Go `uint32` holds after a possibly
overflowing arithmetic operation whose mathematical result is `x`. -/
def wrap32 (x : Nat) : Nat := x % 2 ^ 32

/-- Models Go `strings.HasPrefix` on the character sequence. -/
def hasPrefix (s pre : String) : Bool := pre.data.isPrefixOf s.data

/-- Models Go `strings.HasSuffix` on the character sequence. -/
def hasSuffix (s suf : String) : Bool := suf.data.isSuffixOf s.data

/-- The largest value a Go `int64` can hold. -/
def maxInt64 : Nat := 2 ^ 63 - 1

/-- Embeds the anchored regular expression `^(\d+)([BKMG])?$` used by
`parseSize`: returns the digit group and the (possibly empty) unit group
when the whole string matches, `none` otherwise.  Since `B`, `K`, `M`, `G`
are not digits, a whole-string match puts exactly the maximal leading
digit run into the first group and the rest (empty or a single unit
letter) into the second. -/
def sizeRegexMatch (s : String) : Option (String × String) :=
  if (s.data.takeWhile Char.isDigit).isEmpty then none
  else if (s.data.dropWhile Char.isDigit).isEmpty then
    some (String.mk (s.data.takeWhile Char.isDigit), "")
  else if String.mk (s.data.dropWhile Char.isDigit) = "B" ∨
      String.mk (s.data.dropWhile Char.isDigit) = "K" ∨
      String.mk (s.data.dropWhile Char.isDigit) = "M" ∨
      String.mk (s.data.dropWhile Char.isDigit) = "G" then
    some (String.mk (s.data.takeWhile Char.isDigit), String.mk (s.data.dropWhile Char.isDigit))
  else none

/-- The base-10 value of a digit group, the value Go
`strconv.ParseInt(_, 10, 64)` computes on it: on an all-digit non-empty
group the only possible parse failure is the range error, checked
separately against `maxInt64`. -/
def digitsVal (l : List Char) : Nat :=
  l.foldl (fun acc c => acc * 10 + (c.toNat - 48)) 0

/-- Embeds `parseSize` (dsl helper): match `^(\d+)([BKMG])?$`, parse the
digits as an `int64` (Go `strconv.ParseInt(_, 10, 64)` fails once the
value exceeds `maxInt64`), then multiply by 1 / 2^10 / 2^20 / 2^30 in
wrapping `int64` arithmetic. -/
def parseSize (sizeStr : String) : Except String Int :=
  match sizeRegexMatch sizeStr with
  | none => .error ("invalid size format: " ++ sizeStr ++ " (expected format: 100B, 10K, 5M, 1G)")
  | some (digits, unit) =>
    if maxInt64 < digitsVal digits.data then .error ("invalid size number: " ++ digits)
    else
      let size : Int := (digitsVal digits.data : Int)
      if unit = "B" ∨ unit = "" then .ok size
      else if unit = "K" then .ok (wrap64 (size * 1024))
      else if unit = "M" then .ok (wrap64 (size * (1024 * 1024)))
      else if unit = "G" then .ok (wrap64 (size * (1024 * 1024 * 1024)))
      else .error ("invalid size unit: " ++ unit ++ " (expected B, K, M, or G)")

/-- The unit multiplier the spec assigns to each suffix group of the size
regular expression. -/
def unitMultiplier (unit : String) : Nat :=
  if unit = "K" then 1024
  else if unit = "M" then 1024 * 1024
  else if unit = "G" then 1024 * 1024 * 1024
  else 1

/-- Models Go `strings.ToLower` on the character sequence; `Char.toLower`
agrees with Go on the ASCII range flag names live in. -/
def toLowerGo (s : String) : String := String.mk (s.data.map Char.toLower)

/-- Embeds `convertToIMAPFlag` (dsl helper): pass names already carrying a
protocol escape marker through unchanged, map the seven known names
case-insensitively to their canonical forms, pass anything else through
verbatim. -/
def convertToIMAPFlag (flag : String) : String :=
  if hasPrefix flag "\\" ∨ hasPrefix flag "$" then flag
  else
    let flagLower := toLowerGo flag
    if flagLower = "seen" then "\\Seen"
    else if flagLower = "answered" then "\\Answered"
    else if flagLower = "flagged" then "\\Flagged"
    else if flagLower = "deleted" then "\\Deleted"
    else if flagLower = "draft" then "\\Draft"
    else if flagLower = "recent" then "\\Recent"
    else if flagLower = "important" then "$Important"
    else flag

/-- Embeds `ContentField` (dsl model): content output configuration for
body and MIME-part fields. -/
structure ContentField where
  Type' : String := ""
  MaxLength : Int := 0
  MinLength : Int := 0
  Mode : String := ""
  Types : List String := []
  ShowTypes : Bool := false
  ShowContent : Bool := false
  deriving Repr, DecidableEq

/-- Embeds `ContentField.ShouldInclude`: decides whether a MIME part with
the given media type is selected for content retrieval.  `text_only`
keeps `text/plain`-prefixed types, `filter` matches against the
configured type list (empty list admits everything; a `foo/*` entry
matches by prefix `foo/`), every other mode admits everything. -/
def ContentField.ShouldInclude (c : ContentField) (mediaType : String) : Bool :=
  if c.Mode = "text_only" then
    hasPrefix mediaType "text/plain"
  else if c.Mode = "filter" then
    if c.Types.length = 0 then true
    else c.Types.any fun allowedType =>
      if hasSuffix allowedType "/*" then
        hasPrefix mediaType (allowedType.dropRight 2 ++ "/")
      else mediaType = allowedType
  else true

/-- Embeds `Field` (dsl model): one requested output field; complex fields
carry a `ContentField`. -/
structure Field where
  Name : String := ""
  Content : Option ContentField := none
  deriving Repr, DecidableEq

/-- Embeds one entry of `OutputConfig.Fields` (Go `[]interface{}`): a
value is either a `Field` or some other YAML value, which `Validate`
skips over. -/
inductive FieldValue : Type where
  | field (f : Field)
  | other
  deriving Repr, DecidableEq

/-- Embeds `OutputConfig` (dsl model).  Go `int` fields are embedded as
`Int`, `uint32` fields as `Nat` holding values below 2^32. -/
structure OutputConfig where
  Format : String := ""
  Limit : Int := 0
  Offset : Int := 0
  AfterUID : Nat := 0
  BeforeUID : Nat := 0
  Fields : List FieldValue := []
  deriving Repr, DecidableEq

/-- Embeds `OutputConfig.Validate`: checks the format name, requires at
least one field, rejects a negative limit, and for each `mime_parts`
field with content configuration checks the mode name and requires a
non-empty type list in `filter` mode. -/
def OutputConfig.Validate (o : OutputConfig) : Except String Unit :=
  if o.Format ≠ "" ∧ o.Format ≠ "json" ∧ o.Format ≠ "text" ∧ o.Format ≠ "table" then
    .error ("invalid format: " ++ o.Format ++ " (must be json, text, or table)")
  else if o.Fields.length = 0 then
    .error "at least one output field is required"
  else if o.Limit < 0 then
    .error "limit cannot be negative"
  else
    validateFields o.Fields
where
  /-- The field-validation loop of `OutputConfig.Validate`. -/
  validateFields : List FieldValue → Except String Unit
  | [] => .ok ()
  | .other :: rest => validateFields rest
  | .field f :: rest =>
    if f.Name = "mime_parts" then
      match f.Content with
      | none => validateFields rest
      | some c =>
        if c.Mode ≠ "" ∧ c.Mode ≠ "text_only" ∧ c.Mode ≠ "full" ∧ c.Mode ≠ "filter" then
          .error ("invalid mime_parts mode: " ++ c.Mode ++ " (must be text_only, full, or filter)")
        else if c.Mode = "filter" ∧ c.Types.length = 0 then
          .error "mime_parts types must be specified when mode is filter"
        else validateFields rest
    else validateFields rest

/-- Embeds `HeaderCriteria` (dsl model): one named-header equality. -/
structure HeaderCriteria where
  Name : String := ""
  Value : String := ""
  deriving Repr, DecidableEq

/-- Embeds `FlagCriteria` (dsl model): flags that must / must not be set. -/
structure FlagCriteria where
  Has : List String := []
  NotHas : List String := []
  deriving Repr, DecidableEq

/-- Embeds `SizeCriteria` (dsl model): size bounds as unparsed strings. -/
structure SizeCriteria where
  LargerThan : String := ""
  SmallerThan : String := ""
  deriving Repr, DecidableEq

/-- Embeds `SearchConfig` (dsl model).  Go declares `SearchConfig` with
`Conditions []ComplexSearchConfig`, where `ComplexSearchConfig` inlines a
`SearchConfig` and adds nothing, so the two types are identified here and
the recursion is direct.  The date fields (`Since`, `Before`, `On`,
`WithinDays`), which no stated property touches and whose compilation
depends on a wall clock, are not part of the embedding. -/
inductive SearchConfig : Type where
  | mk
    (From To Cc Bcc Subject SubjectContains : String)
    (Header : Option HeaderCriteria)
    (BodyContains Text : String)
    (Flags : Option FlagCriteria)
    (Size : Option SizeCriteria)
    (Operator : String)
    (Conditions : List SearchConfig)

/-- `ComplexSearchConfig` inlines `SearchConfig` and adds no fields. -/
abbrev ComplexSearchConfig := SearchConfig

namespace SearchConfig

def From : SearchConfig → String | .mk v _ _ _ _ _ _ _ _ _ _ _ _ => v
def To : SearchConfig → String | .mk _ v _ _ _ _ _ _ _ _ _ _ _ => v
def Cc : SearchConfig → String | .mk _ _ v _ _ _ _ _ _ _ _ _ _ => v
def Bcc : SearchConfig → String | .mk _ _ _ v _ _ _ _ _ _ _ _ _ => v
def Subject : SearchConfig → String | .mk _ _ _ _ v _ _ _ _ _ _ _ _ => v
def SubjectContains : SearchConfig → String | .mk _ _ _ _ _ v _ _ _ _ _ _ _ => v
def Header : SearchConfig → Option HeaderCriteria | .mk _ _ _ _ _ _ v _ _ _ _ _ _ => v
def BodyContains : SearchConfig → String | .mk _ _ _ _ _ _ _ v _ _ _ _ _ => v
def Text : SearchConfig → String | .mk _ _ _ _ _ _ _ _ v _ _ _ _ => v
def Flags : SearchConfig → Option FlagCriteria | .mk _ _ _ _ _ _ _ _ _ v _ _ _ => v
def Size : SearchConfig → Option SizeCriteria | .mk _ _ _ _ _ _ _ _ _ _ v _ _ => v
def Operator : SearchConfig → String | .mk _ _ _ _ _ _ _ _ _ _ _ v _ => v
def Conditions : SearchConfig → List SearchConfig | .mk _ _ _ _ _ _ _ _ _ _ _ _ v => v

/-- A leaf configuration (no combinator, no sub-conditions). -/
def leaf (From To Cc Bcc Subject SubjectContains : String)
    (Header : Option HeaderCriteria) (BodyContains Text : String)
    (Flags : Option FlagCriteria) (Size : Option SizeCriteria) : SearchConfig :=
  .mk From To Cc Bcc Subject SubjectContains Header BodyContains Text Flags Size "" []

/-- A combinator configuration whose leaf fields are all unset, the shape
produced by parsing `operator:`/`conditions:` rule clauses. -/
def combinator (op : String) (conds : List SearchConfig) : SearchConfig :=
  .mk "" "" "" "" "" "" none "" "" none none op conds

theorem sizeOf_Conditions_lt (c : SearchConfig) : sizeOf c.Conditions < sizeOf c := by
  cases c with
  | mk a b d e f g h i j k l m n => simp [Conditions]

theorem sizeOf_mem_lt {c : SearchConfig} {l : List SearchConfig} (h : c ∈ l) :
    sizeOf c < sizeOf l := by
  induction l with
  | nil => cases h
  | cons a as ih =>
    cases h with
    | head => simp; omega
    | tail _ h => have := ih h; simp; omega

end SearchConfig

/-- Embeds `imap.SearchCriteria` from the external go-imap library, in the
fields this repository's compiler populates.  A UID set is a list of
`(start, stop)` ranges of `uint32` values, where the value `0` is the
library's encoding of the sentinel `*` (unbounded); `Larger`/`Smaller`
are `int64` byte bounds; `Not` holds negated criteria and `Or` holds
two-element disjunction groups.  The date fields are not embedded, as the
date leaves are outside the modelled fragment. -/
inductive SearchCriteria : Type where
  | mk
    (UID : List (List (Nat × Nat)))
    (Header : List (String × String))
    (Body : List String)
    (Text : List String)
    (Flag : List String)
    (NotFlag : List String)
    (Larger : Int)
    (Smaller : Int)
    (Not : List SearchCriteria)
    (Or : List (SearchCriteria × SearchCriteria))

namespace SearchCriteria

def UID : SearchCriteria → List (List (Nat × Nat)) | .mk v _ _ _ _ _ _ _ _ _ => v
def Header : SearchCriteria → List (String × String) | .mk _ v _ _ _ _ _ _ _ _ => v
def Body : SearchCriteria → List String | .mk _ _ v _ _ _ _ _ _ _ => v
def Text : SearchCriteria → List String | .mk _ _ _ v _ _ _ _ _ _ => v
def Flag : SearchCriteria → List String | .mk _ _ _ _ v _ _ _ _ _ => v
def NotFlag : SearchCriteria → List String | .mk _ _ _ _ _ v _ _ _ _ => v
def Larger : SearchCriteria → Int | .mk _ _ _ _ _ _ v _ _ _ => v
def Smaller : SearchCriteria → Int | .mk _ _ _ _ _ _ _ v _ _ => v
def Not : SearchCriteria → List SearchCriteria | .mk _ _ _ _ _ _ _ _ v _ => v
def Or : SearchCriteria → List (SearchCriteria × SearchCriteria) | .mk _ _ _ _ _ _ _ _ _ v => v

/-- The zero value `&imap.SearchCriteria{}`. -/
def empty : SearchCriteria := .mk [] [] [] [] [] [] 0 0 [] []

/-- Models the external go-imap `SearchCriteria.And` merge used by the AND
combinator: list-valued fields are appended, the size bounds are
tightened treating `0` as unset, and `Not`/`Or` groups are concatenated. -/
def and (c other : SearchCriteria) : SearchCriteria :=
  .mk (c.UID ++ other.UID) (c.Header ++ other.Header) (c.Body ++ other.Body)
    (c.Text ++ other.Text) (c.Flag ++ other.Flag) (c.NotFlag ++ other.NotFlag)
    (if c.Larger = 0 ∨ other.Larger > c.Larger then other.Larger else c.Larger)
    (if c.Smaller = 0 ∨ other.Smaller < c.Smaller then other.Smaller else c.Smaller)
    (c.Not ++ other.Not) (c.Or ++ other.Or)

/-- A criteria value whose only populated field is the `Or` group list,
the shape `buildOrCondition` produces for two or more children. -/
def orOnly (pairs : List (SearchCriteria × SearchCriteria)) : SearchCriteria :=
  .mk [] [] [] [] [] [] 0 0 [] pairs

end SearchCriteria

/-- Embeds `imap.SearchOptions` in the fields this repository sets. -/
structure SearchOptions where
  ReturnAll : Bool := false
  ReturnCount : Bool := false
  deriving Repr, DecidableEq

/-- The `larger_than` half of the size-criteria block of
`BuildSearchCriteria`: parse the bound when set, wrapping a parse failure
in the stage message; an unset bound leaves the zero value. -/
def sizeLargerField (sz : Option SizeCriteria) : Except String Int :=
  match sz with
  | some s =>
    if s.LargerThan ≠ "" then
      match parseSize s.LargerThan with
      | .ok v => Except.ok v
      | .error e => Except.error ("invalid larger_than size: " ++ e)
    else Except.ok 0
  | none => Except.ok 0

/-- The `smaller_than` half of the size-criteria block of
`BuildSearchCriteria`. -/
def sizeSmallerField (sz : Option SizeCriteria) : Except String Int :=
  match sz with
  | some s =>
    if s.SmallerThan ≠ "" then
      match parseSize s.SmallerThan with
      | .ok v => Except.ok v
      | .error e => Except.error ("invalid smaller_than size: " ++ e)
    else Except.ok 0
  | none => Except.ok 0

mutual

/-- Embeds `BuildSearchCriteria` (dsl/search.go): a combinator config is
validated (non-empty condition list) and delegated to
`buildComplexSearchCriteria`; a leaf config is translated field by field
into the native criteria in source order (headers From, To, Cc, Bcc,
Subject, SubjectContains, custom header; body/text; flags through
`convertToIMAPFlag`; size bounds through `parseSize`), UID-range
pagination is added from the output config, and `ReturnAll`/`ReturnCount`
are requested when a positive limit is configured.  The options pointer
of the Go signature is embedded as `Option SearchOptions` (`none` = nil). -/
def BuildSearchCriteria (config : SearchConfig) (outputConfig : Option OutputConfig) :
    Except String (SearchCriteria × Option SearchOptions) :=
  if config.Operator ≠ "" then
    if config.Conditions.length = 0 then
      if config.Operator = "and" then .error "empty conditions list for AND operator"
      else if config.Operator = "or" then .error "empty conditions list for OR operator"
      else if config.Operator = "not" then .error "NOT operator requires at least one condition"
      else .error ("unsupported operator: " ++ config.Operator)
    else buildComplexSearchCriteria config outputConfig
  else do
    let header :=
      (if config.From ≠ "" then [("From", config.From)] else []) ++
      (if config.To ≠ "" then [("To", config.To)] else []) ++
      (if config.Cc ≠ "" then [("Cc", config.Cc)] else []) ++
      (if config.Bcc ≠ "" then [("Bcc", config.Bcc)] else []) ++
      (if config.Subject ≠ "" then [("Subject", config.Subject)] else []) ++
      (if config.SubjectContains ≠ "" then [("Subject", config.SubjectContains)] else []) ++
      (config.Header.elim [] fun h => if h.Name ≠ "" then [(h.Name, h.Value)] else [])
    let body := if config.BodyContains ≠ "" then [config.BodyContains] else []
    let text := if config.Text ≠ "" then [config.Text] else []
    let flag := (config.Flags.elim [] FlagCriteria.Has).map convertToIMAPFlag
    let notFlag := (config.Flags.elim [] FlagCriteria.NotHas).map convertToIMAPFlag
    let larger ← sizeLargerField config.Size
    let smaller ← sizeSmallerField config.Size
    let uid : List (List (Nat × Nat)) := outputConfig.elim [] fun oc =>
      if oc.AfterUID > 0 ∨ oc.BeforeUID > 0 then
        if oc.AfterUID > 0 ∧ oc.BeforeUID > 0 then
          [[(wrap32 (oc.AfterUID + 1), oc.BeforeUID - 1)]]
        else if oc.AfterUID > 0 then [[(wrap32 (oc.AfterUID + 1), 0)]]
        else [[(1, oc.BeforeUID - 1)]]
      else []
    let options : SearchOptions := outputConfig.elim {} fun oc =>
      if oc.Limit > 0 then { ReturnAll := true, ReturnCount := true } else {}
    Except.ok (SearchCriteria.mk uid header body text flag notFlag larger smaller [] [], some options)

termination_by (sizeOf config, 2)
decreasing_by
  simp_wf
  apply Prod.Lex.right
  omega

/-- Embeds `buildComplexSearchCriteria`: dispatches a combinator config on
its operator; the NOT branch re-checks the empty list, enforces the
single-child arity, and delegates the sole child to `buildNotCondition`. -/
def buildComplexSearchCriteria (config : SearchConfig) (outputConfig : Option OutputConfig) :
    Except String (SearchCriteria × Option SearchOptions) :=
  if config.Operator = "and" then buildAndCondition config.Conditions outputConfig
  else if config.Operator = "or" then buildOrCondition config.Conditions outputConfig
  else if config.Operator = "not" then
    match h : config.Conditions with
    | [] => .error "NOT operator requires at least one condition"
    | [c] => buildNotCondition c outputConfig
    | c1 :: c2 :: rest =>
      .error ("operator not can only have one condition, but " ++
        toString (c1 :: c2 :: rest).length ++ " were provided")
  else .error ("unsupported operator: " ++ config.Operator)

termination_by (sizeOf config, 1)
decreasing_by
  all_goals simp_wf
  all_goals apply Prod.Lex.left
  all_goals
    first
      | (have h1 := SearchConfig.sizeOf_Conditions_lt config
         omega)
      | (have h1 := SearchConfig.sizeOf_Conditions_lt config
         rw [h] at h1
         simp at h1
         omega)

/-- Embeds `buildAndCondition`: compile the first condition with the
output config, then fold the native AND merge over the remaining
conditions, each compiled without pagination. -/
def buildAndCondition (conditions : List SearchConfig) (outputConfig : Option OutputConfig) :
    Except String (SearchCriteria × Option SearchOptions) :=
  match conditions with
  | [] => .error "empty conditions list for AND operator"
  | c0 :: rest => do
    let r0 ← buildSingleCondition c0 outputConfig
    let main ← buildAndConditionLoop r0.1 rest
    Except.ok (main, r0.2)

termination_by (sizeOf conditions, 0)
decreasing_by
  all_goals simp_wf
  all_goals apply Prod.Lex.left
  all_goals omega

/-- The accumulation loop of `buildAndCondition` over the conditions after
the first. -/
def buildAndConditionLoop (acc : SearchCriteria) (conditions : List SearchConfig) :
    Except String SearchCriteria :=
  match conditions with
  | [] => Except.ok acc
  | c :: rest => do
    let s ← buildSingleCondition c none
    buildAndConditionLoop (acc.and s.1) rest

termination_by (sizeOf conditions, 0)
decreasing_by
  all_goals simp_wf
  all_goals apply Prod.Lex.left
  all_goals omega

/-- Embeds `buildOrCondition`: an empty list is rejected, a single
condition is compiled and returned unwrapped, and two or more conditions
are compiled pairwise into native OR pairs by `buildOrConditionLoop`; the
search options of the first condition are kept only when an output config
was passed (otherwise the nil options pointer is returned). -/
def buildOrCondition (conditions : List SearchConfig) (outputConfig : Option OutputConfig) :
    Except String (SearchCriteria × Option SearchOptions) :=
  match conditions with
  | [] => .error "empty conditions list for OR operator"
  | [c] => buildSingleCondition c outputConfig
  | c :: c' :: rest => do
    let t ← buildOrConditionLoop (c :: c' :: rest)
    let options := if outputConfig.isSome then t.2 else none
    Except.ok (SearchCriteria.orOnly t.1, options)

termination_by (sizeOf conditions, 1)
decreasing_by
  all_goals simp_wf
  all_goals
    first
      | (apply Prod.Lex.right; omega)
      | (apply Prod.Lex.left; omega)

/-- The pairing loop of `buildOrCondition`: conditions are consumed two at
a time into OR pairs, each compiled without pagination; a trailing single
condition of an odd-length list is paired with itself.  Also returns the
options of the first compiled condition (the loop's `i == 0` save).
Modelled from the spec at one point: the source line building the
trailing pair is cut off after its first component, and the spec states
the trailing child "is paired with itself as a degenerate OR pair
(self-disjunction)". -/
def buildOrConditionLoop (conditions : List SearchConfig) :
    Except String (List (SearchCriteria × SearchCriteria) × Option SearchOptions) :=
  match conditions with
  | [] => Except.ok ([], none)
  | [c] => do
    let r ← buildSingleCondition c none
    Except.ok ([(r.1, r.1)], r.2)
  | c :: c' :: rest => do
    let r ← buildSingleCondition c none
    let r' ← buildSingleCondition c' none
    let t ← buildOrConditionLoop rest
    Except.ok ((r.1, r'.1) :: t.1, r.2)

termination_by (sizeOf conditions, 0)
decreasing_by
  all_goals simp_wf
  all_goals apply Prod.Lex.left
  all_goals omega

/-- Embeds `buildNotCondition`: compile the single child and wrap its
criteria in the native negation list. -/
def buildNotCondition (condition : SearchConfig) (outputConfig : Option OutputConfig) :
    Except String (SearchCriteria × Option SearchOptions) := do
  let r ← buildSingleCondition condition outputConfig
  Except.ok (SearchCriteria.mk [] [] [] [] [] [] 0 0 [r.1] [], r.2)

termination_by (sizeOf condition, 4)
decreasing_by
  simp_wf
  apply Prod.Lex.right
  omega

/-- Embeds `buildSingleCondition`: a condition carrying an operator and
children recurses through `buildComplexSearchCriteria`, anything else is
compiled as a flat condition by `BuildSearchCriteria`. -/
def buildSingleCondition (condition : SearchConfig) (outputConfig : Option OutputConfig) :
    Except String (SearchCriteria × Option SearchOptions) :=
  if condition.Operator ≠ "" ∧ condition.Conditions.length > 0 then
    buildComplexSearchCriteria condition outputConfig
  else
    BuildSearchCriteria condition outputConfig

termination_by (sizeOf condition, 3)
decreasing_by
  all_goals simp_wf
  all_goals apply Prod.Lex.right
  all_goals omega

end

/-- Compiles each condition independently, without pagination, and
collects the criteria — the per-child compilations `buildOrCondition`
performs inside its pairing loop. -/
def compileEach : List SearchConfig → Except String (List SearchCriteria)
  | [] => Except.ok []
  | c :: rest =>
    match buildSingleCondition c none, compileEach rest with
    | Except.ok r, Except.ok t => Except.ok (r.1 :: t)
    | Except.error e, _ => Except.error e
    | Except.ok _, Except.error e => Except.error e

/-- The pairing scheme the spec describes for the OR combinator: children
at indices (0,1), (2,3), ... become pairs, and the trailing child of an
odd-length list is paired with itself. -/
def mkOrPairs : List SearchCriteria → List (SearchCriteria × SearchCriteria)
  | [] => []
  | [c] => [(c, c)]
  | c :: c' :: rest => (c, c') :: mkOrPairs rest

theorem mkOrPairs_length : ∀ cs : List SearchCriteria,
    (mkOrPairs cs).length = (cs.length + 1) / 2
  | [] => rfl
  | [_] => by simp [mkOrPairs]
  | _ :: _ :: rest => by
    simp [mkOrPairs, mkOrPairs_length rest]
    omega

theorem compileEach_length : ∀ {conds : List SearchConfig} {cs : List SearchCriteria},
    compileEach conds = Except.ok cs → cs.length = conds.length := by
  intro conds
  induction conds with
  | nil => intro cs h; simp [compileEach] at h; simp [← h]
  | cons c rest ih =>
    intro cs h
    simp only [compileEach] at h
    cases hc : buildSingleCondition c none with
    | error e => rw [hc] at h; simp at h
    | ok r =>
      rw [hc] at h
      cases hr : compileEach rest with
      | error e => rw [hr] at h; simp at h
      | ok t => rw [hr] at h; simp at h; simp [← h, ih hr]

theorem buildOrConditionLoop_ok : ∀ (conds : List SearchConfig) (cs : List SearchCriteria),
    compileEach conds = Except.ok cs →
    ∃ o, buildOrConditionLoop conds = Except.ok (mkOrPairs cs, o)
  | [], cs, h => by
    simp [compileEach] at h
    exact ⟨none, by simp [buildOrConditionLoop, h, mkOrPairs]⟩
  | [c], cs, h => by
    simp only [compileEach] at h
    cases hc : buildSingleCondition c none with
    | error e => rw [hc] at h; simp at h
    | ok r =>
      rw [hc] at h
      simp [compileEach] at h
      refine ⟨r.2, ?_⟩
      simp [buildOrConditionLoop, hc, ← h, mkOrPairs,
        Except.instMonad, Except.bind, Except.map, Except.pure]
  | c :: c' :: rest, cs, h => by
    simp only [compileEach] at h
    cases hc : buildSingleCondition c none with
    | error e => rw [hc] at h; simp at h
    | ok r =>
      rw [hc] at h
      cases hc' : buildSingleCondition c' none with
      | error e => rw [hc'] at h; simp at h
      | ok r' =>
        rw [hc'] at h
        cases hr : compileEach rest with
        | error e => rw [hr] at h; simp at h
        | ok t =>
          rw [hr] at h
          simp at h
          obtain ⟨o, ho⟩ := buildOrConditionLoop_ok rest t hr
          refine ⟨r.2, ?_⟩
          simp [buildOrConditionLoop, hc, hc', ho, ← h, mkOrPairs,
            Except.instMonad, Except.bind, Except.map, Except.pure]

/-- C1: compiling an OR combinator with n ≥ 2 children whose children all
compile produces a native query whose only content is the `Or` group
list, holding exactly ⌈n/2⌉ pairs built from the compiled children at
indices (0,1), (2,3), ..., with the trailing child of an odd-length list
paired with itself (`mkOrPairs`); and an OR of exactly one child returns
that child's compiled result directly, with no OR wrapper. -/
theorem or_pairing_spec :
    (∀ (conds : List SearchConfig) (oc : Option OutputConfig) (cs : List SearchCriteria),
      2 ≤ conds.length → compileEach conds = Except.ok cs →
      ∃ opts, buildOrCondition conds oc = Except.ok (SearchCriteria.orOnly (mkOrPairs cs), opts) ∧
        (mkOrPairs cs).length = (conds.length + 1) / 2) ∧
    (∀ (c : SearchConfig) (oc : Option OutputConfig),
      buildOrCondition [c] oc = buildSingleCondition c oc) := by
  constructor
  · intro conds oc cs h2 hcs
    match conds, h2 with
    | c :: c' :: rest, _ =>
      obtain ⟨o, ho⟩ := buildOrConditionLoop_ok (c :: c' :: rest) cs hcs
      refine ⟨if oc.isSome then o else none, ?_, ?_⟩
      · simp [buildOrCondition, ho,
          Except.instMonad, Except.bind, Except.map, Except.pure]
      · rw [mkOrPairs_length, compileEach_length hcs]
  · intro c oc
    simp [buildOrCondition]

/-- Witness for `or_pairing_spec`: three one-leaf children with subjects
a, b, c compile to two OR pairs — (A, B) and the self-pair (C, C) — and
an OR of one child collapses. -/
theorem or_pairing_spec_witness :
    (2 ≤ ([SearchConfig.leaf "" "" "" "" "a" "" none "" "" none none,
           SearchConfig.leaf "" "" "" "" "b" "" none "" "" none none,
           SearchConfig.leaf "" "" "" "" "c" "" none "" "" none none] : List SearchConfig).length) ∧
    compileEach
        [SearchConfig.leaf "" "" "" "" "a" "" none "" "" none none,
         SearchConfig.leaf "" "" "" "" "b" "" none "" "" none none,
         SearchConfig.leaf "" "" "" "" "c" "" none "" "" none none] =
      Except.ok
        [SearchCriteria.mk [] [("Subject", "a")] [] [] [] [] 0 0 [] [],
         SearchCriteria.mk [] [("Subject", "b")] [] [] [] [] 0 0 [] [],
         SearchCriteria.mk [] [("Subject", "c")] [] [] [] [] 0 0 [] []] ∧
    ∃ opts,
      buildOrCondition
          [SearchConfig.leaf "" "" "" "" "a" "" none "" "" none none,
           SearchConfig.leaf "" "" "" "" "b" "" none "" "" none none,
           SearchConfig.leaf "" "" "" "" "c" "" none "" "" none none] none =
        Except.ok
          (SearchCriteria.orOnly
            (mkOrPairs
              [SearchCriteria.mk [] [("Subject", "a")] [] [] [] [] 0 0 [] [],
               SearchCriteria.mk [] [("Subject", "b")] [] [] [] [] 0 0 [] [],
               SearchCriteria.mk [] [("Subject", "c")] [] [] [] [] 0 0 [] []]), opts) ∧
      (mkOrPairs
        [SearchCriteria.mk [] [("Subject", "a")] [] [] [] [] 0 0 [] [],
         SearchCriteria.mk [] [("Subject", "b")] [] [] [] [] 0 0 [] [],
         SearchCriteria.mk [] [("Subject", "c")] [] [] [] [] 0 0 [] []]).length = 2 := by
  refine ⟨by simp, ?_, ?_⟩
  · simp [compileEach, buildSingleCondition, BuildSearchCriteria, SearchConfig.leaf,
      SearchConfig.Operator, SearchConfig.Conditions, SearchConfig.From, SearchConfig.To,
      SearchConfig.Cc, SearchConfig.Bcc, SearchConfig.Subject, SearchConfig.SubjectContains,
      SearchConfig.Header, SearchConfig.BodyContains, SearchConfig.Text, SearchConfig.Flags,
      SearchConfig.Size, sizeLargerField, sizeSmallerField,
      Except.instMonad, Except.bind, Except.map, Except.pure]
  · exact or_pairing_spec.1 _ none _ (by simp)
      (by simp [compileEach, buildSingleCondition, BuildSearchCriteria, SearchConfig.leaf,
        SearchConfig.Operator, SearchConfig.Conditions, SearchConfig.From, SearchConfig.To,
        SearchConfig.Cc, SearchConfig.Bcc, SearchConfig.Subject, SearchConfig.SubjectContains,
        SearchConfig.Header, SearchConfig.BodyContains, SearchConfig.Text, SearchConfig.Flags,
        SearchConfig.Size, sizeLargerField, sizeSmallerField,
        Except.instMonad, Except.bind, Except.map, Except.pure])

/-- C5: compiling a NOT combinator fails with the arity-violation error
for two or more children and with the empty-conditions error for zero
children, and succeeds for exactly one child, wrapping the child's
compiled criteria in the native negation list; an error return carries no
criteria value, so no partial query escapes. -/
theorem not_arity_spec :
    (∀ (config : SearchConfig) (oc : Option OutputConfig) (c1 c2 : SearchConfig)
      (rest : List SearchConfig),
      config.Operator = "not" → config.Conditions = c1 :: c2 :: rest →
      BuildSearchCriteria config oc =
        Except.error ("operator not can only have one condition, but " ++
          toString (c1 :: c2 :: rest).length ++ " were provided")) ∧
    (∀ (config : SearchConfig) (oc : Option OutputConfig),
      config.Operator = "not" → config.Conditions = [] →
      BuildSearchCriteria config oc =
        Except.error "NOT operator requires at least one condition") ∧
    (∀ (config : SearchConfig) (oc : Option OutputConfig) (c : SearchConfig)
      (r : SearchCriteria × Option SearchOptions),
      config.Operator = "not" → config.Conditions = [c] →
      buildSingleCondition c oc = Except.ok r →
      BuildSearchCriteria config oc =
        Except.ok (SearchCriteria.mk [] [] [] [] [] [] 0 0 [r.1] [], r.2)) := by
  refine ⟨?_, ?_, ?_⟩
  · intro config oc c1 c2 rest hop hconds
    rw [BuildSearchCriteria.eq_def]
    rw [buildComplexSearchCriteria.eq_def]
    simp [hop, hconds]
    split
    · rename_i heq; rw [hconds] at heq; simp at heq
    · rename_i heq; rw [hconds] at heq; simp at heq
    · rename_i heq
      rw [hconds] at heq
      simp at heq
      obtain ⟨-, -, h3⟩ := heq
      simp [h3]
  · intro config oc hop hconds
    rw [BuildSearchCriteria.eq_def]
    simp [hop, hconds]
  · intro config oc c r hop hconds hc
    rw [BuildSearchCriteria.eq_def]
    rw [buildComplexSearchCriteria.eq_def]
    simp [hop, hconds]
    split
    · rename_i heq; rw [hconds] at heq; simp at heq
    · rename_i c' heq
      rw [hconds] at heq
      simp at heq
      subst heq
      simp [buildNotCondition, hc,
        Except.instMonad, Except.bind, Except.map, Except.pure]
    · rename_i heq; rw [hconds] at heq; simp at heq

/-- Witness for `not_arity_spec`: concrete NOT combinators over
subject-leaf children at each arity. -/
theorem not_arity_spec_witness :
    BuildSearchCriteria
        (SearchConfig.combinator "not"
          [SearchConfig.leaf "" "" "" "" "a" "" none "" "" none none,
           SearchConfig.leaf "" "" "" "" "b" "" none "" "" none none]) none =
      Except.error "operator not can only have one condition, but 2 were provided" ∧
    BuildSearchCriteria (SearchConfig.combinator "not" []) none =
      Except.error "NOT operator requires at least one condition" ∧
    BuildSearchCriteria
        (SearchConfig.combinator "not"
          [SearchConfig.leaf "" "" "" "" "a" "" none "" "" none none]) none =
      Except.ok
        (SearchCriteria.mk [] [] [] [] [] [] 0 0
          [SearchCriteria.mk [] [("Subject", "a")] [] [] [] [] 0 0 [] []] [],
          some { ReturnAll := false, ReturnCount := false }) := by
  refine ⟨?_, ?_, ?_⟩
  · exact not_arity_spec.1
      (SearchConfig.combinator "not"
        [SearchConfig.leaf "" "" "" "" "a" "" none "" "" none none,
         SearchConfig.leaf "" "" "" "" "b" "" none "" "" none none]) none
      (SearchConfig.leaf "" "" "" "" "a" "" none "" "" none none)
      (SearchConfig.leaf "" "" "" "" "b" "" none "" "" none none) [] rfl rfl
  · exact not_arity_spec.2.1 (SearchConfig.combinator "not" []) none rfl rfl
  · exact not_arity_spec.2.2
      (SearchConfig.combinator "not"
        [SearchConfig.leaf "" "" "" "" "a" "" none "" "" none none]) none
      (SearchConfig.leaf "" "" "" "" "a" "" none "" "" none none)
      (SearchCriteria.mk [] [("Subject", "a")] [] [] [] [] 0 0 [] [],
        some { ReturnAll := false, ReturnCount := false })
      rfl rfl
      (by simp [buildSingleCondition, BuildSearchCriteria, SearchConfig.leaf,
        SearchConfig.Operator, SearchConfig.Conditions, SearchConfig.From, SearchConfig.To,
        SearchConfig.Cc, SearchConfig.Bcc, SearchConfig.Subject, SearchConfig.SubjectContains,
        SearchConfig.Header, SearchConfig.BodyContains, SearchConfig.Text, SearchConfig.Flags,
        SearchConfig.Size, sizeLargerField, sizeSmallerField,
        Except.instMonad, Except.bind, Except.map, Except.pure])

/-- C8 (amended): when a leaf search compiles successfully against an
output config, the UID restriction of the compiled criteria is: both
bounds positive → the single range (AfterUID+1, BeforeUID-1); only the
lower bound positive → (AfterUID+1, 0), where 0 is the library's
`*` sentinel for unbounded; only the upper bound positive →
(1, BeforeUID-1); neither → no UID restriction — provided
AfterUID ≤ 2^32 - 2, since the start `AfterUID+1` is computed in `uint32`
and wraps to the sentinel 0 at `AfterUID = 2^32 - 1`. -/
theorem uid_range_spec :
    ∀ (config : SearchConfig) (oc : OutputConfig) (r : SearchCriteria × Option SearchOptions),
      config.Operator = "" → oc.AfterUID ≤ 4294967294 →
      BuildSearchCriteria config (some oc) = Except.ok r →
      r.1.UID =
        (if 0 < oc.AfterUID ∧ 0 < oc.BeforeUID then [[(oc.AfterUID + 1, oc.BeforeUID - 1)]]
         else if 0 < oc.AfterUID then [[(oc.AfterUID + 1, 0)]]
         else if 0 < oc.BeforeUID then [[(1, oc.BeforeUID - 1)]]
         else []) := by
  intro config oc r hop hle hok
  rw [BuildSearchCriteria.eq_def] at hok
  simp [hop] at hok
  cases hl : sizeLargerField config.Size with
  | error e =>
    rw [hl] at hok
    simp [Except.instMonad, Except.bind, Except.map, Except.pure] at hok
  | ok lv =>
    rw [hl] at hok
    cases hs : sizeSmallerField config.Size with
    | error e =>
      rw [hs] at hok
      simp [Except.instMonad, Except.bind, Except.map, Except.pure] at hok
    | ok sv =>
      rw [hs] at hok
      simp [Except.instMonad, Except.bind, Except.map, Except.pure] at hok
      rw [← hok]
      have hw : wrap32 (oc.AfterUID + 1) = oc.AfterUID + 1 := by
        simp [wrap32]
        omega
      simp [SearchCriteria.UID, Option.elim, hw]
      split_ifs <;> simp_all <;> omega

/-- Witness for `uid_range_spec`: a trivial leaf with both bounds set
compiles to the single exclusive range (11, 19). -/
theorem uid_range_spec_witness :
    (SearchConfig.leaf "" "" "" "" "" "" none "" "" none none).Operator = "" ∧
    (10 : Nat) ≤ 4294967294 ∧
    BuildSearchCriteria (SearchConfig.leaf "" "" "" "" "" "" none "" "" none none)
        (some { AfterUID := 10, BeforeUID := 20 }) =
      Except.ok (SearchCriteria.mk [[(11, 19)]] [] [] [] [] [] 0 0 [] [],
        some { ReturnAll := false, ReturnCount := false }) ∧
    (SearchCriteria.mk [[(11, 19)]] [] [] [] [] [] 0 0 [] [] : SearchCriteria).UID =
      (if 0 < (10 : Nat) ∧ 0 < (20 : Nat) then [[((10 : Nat) + 1, (20 : Nat) - 1)]]
       else if 0 < (10 : Nat) then [[((10 : Nat) + 1, 0)]]
       else if 0 < (20 : Nat) then [[(1, (20 : Nat) - 1)]]
       else []) := by
  have hok : BuildSearchCriteria (SearchConfig.leaf "" "" "" "" "" "" none "" "" none none)
      (some { AfterUID := 10, BeforeUID := 20 }) =
      Except.ok (SearchCriteria.mk [[(11, 19)]] [] [] [] [] [] 0 0 [] [],
        some { ReturnAll := false, ReturnCount := false }) := by
    simp [BuildSearchCriteria, SearchConfig.leaf, SearchConfig.Operator,
      SearchConfig.Conditions, SearchConfig.From, SearchConfig.To, SearchConfig.Cc,
      SearchConfig.Bcc, SearchConfig.Subject, SearchConfig.SubjectContains,
      SearchConfig.Header, SearchConfig.BodyContains, SearchConfig.Text,
      SearchConfig.Flags, SearchConfig.Size, sizeLargerField, sizeSmallerField,
      wrap32, Except.instMonad, Except.bind, Except.map, Except.pure]
  refine ⟨rfl, by omega, hok, ?_⟩
  have := uid_range_spec (SearchConfig.leaf "" "" "" "" "" "" none "" "" none none)
    { AfterUID := 10, BeforeUID := 20 }
    (SearchCriteria.mk [[(11, 19)]] [] [] [] [] [] 0 0 [] [],
      some { ReturnAll := false, ReturnCount := false }) rfl (by decide) hok
  exact this

/-- C8 counterexample: with lower bound AfterUID = 2^32 - 1 (and no upper
bound), the compiled UID range starts at 0 — the `uint32` increment wraps
to the library's `*` sentinel — and not at AfterUID + 1 = 2^32 as the
claim's exclusive range (AfterUID+1, unbounded) requires. -/
theorem uid_range_wrap_counterexample :
    BuildSearchCriteria (SearchConfig.leaf "" "" "" "" "" "" none "" "" none none)
        (some { AfterUID := 4294967295 }) =
      Except.ok (SearchCriteria.mk [[(0, 0)]] [] [] [] [] [] 0 0 [] [],
        some { ReturnAll := false, ReturnCount := false }) ∧
    (0 : Nat) ≠ 4294967295 + 1 := by
  constructor
  · simp [BuildSearchCriteria, SearchConfig.leaf, SearchConfig.Operator,
      SearchConfig.Conditions, SearchConfig.From, SearchConfig.To, SearchConfig.Cc,
      SearchConfig.Bcc, SearchConfig.Subject, SearchConfig.SubjectContains,
      SearchConfig.Header, SearchConfig.BodyContains, SearchConfig.Text,
      SearchConfig.Flags, SearchConfig.Size, sizeLargerField, sizeSmallerField,
      wrap32, Except.instMonad, Except.bind, Except.map, Except.pure]
  · omega

theorem sizeRegexMatch_unit {s ds u : String} (h : sizeRegexMatch s = some (ds, u)) :
    u = "" ∨ u = "B" ∨ u = "K" ∨ u = "M" ∨ u = "G" := by
  unfold sizeRegexMatch at h
  split_ifs at h with h1 h2 h3
  · simp at h
    tauto
  · rcases h3 with h3 | h3 | h3 | h3 <;> rw [h3] at h <;> simp at h <;> tauto

/-- C6 (amended): `parseSize` succeeds exactly on the strings matched by
`^(\d+)([BKMG])?$` whose digit group fits in `int64` (Go
`strconv.ParseInt` range-errors above `maxInt64`), and then returns the
digit value times the unit multiplier computed in wrapping `int64`
arithmetic — equal to the mathematical product whenever that fits; in
particular "10K" is 10240, "5M" is 5242880, "100B" is 100 and "bad" is a
format error. -/
theorem parseSize_spec :
    (∀ s : String, (∃ v, parseSize s = Except.ok v) ↔
      ∃ p, sizeRegexMatch s = some p ∧ digitsVal p.1.data ≤ maxInt64) ∧
    (∀ (s ds u : String), sizeRegexMatch s = some (ds, u) → digitsVal ds.data ≤ maxInt64 →
      parseSize s = Except.ok (wrap64 ((digitsVal ds.data : Int) * (unitMultiplier u : Nat)))) ∧
    parseSize "10K" = Except.ok 10240 ∧
    parseSize "5M" = Except.ok 5242880 ∧
    parseSize "100B" = Except.ok 100 ∧
    parseSize "bad" = Except.error "invalid size format: bad (expected format: 100B, 10K, 5M, 1G)" := by
  have hval : ∀ (s ds u : String), sizeRegexMatch s = some (ds, u) →
      digitsVal ds.data ≤ maxInt64 →
      parseSize s = Except.ok (wrap64 ((digitsVal ds.data : Int) * (unitMultiplier u : Nat))) := by
    intro s ds u hm hle
    unfold parseSize
    rw [hm]
    simp only [Nat.not_lt.mpr hle, if_neg (Nat.not_lt.mpr hle)]
    have hlt : (digitsVal ds.data : Int) < 9223372036854775808 := by
      have hn : digitsVal ds.data < 9223372036854775808 := by
        simp [maxInt64] at hle
        omega
      exact_mod_cast hn
    rcases sizeRegexMatch_unit hm with h | h | h | h | h <;>
      subst h <;>
      simp [unitMultiplier, wrap64] <;>
      split_ifs <;>
      omega
  refine ⟨?_, hval, by rfl, by rfl, by rfl, by rfl⟩
  intro s
  constructor
  · rintro ⟨v, hv⟩
    unfold parseSize at hv
    cases hm : sizeRegexMatch s with
    | none => rw [hm] at hv; simp at hv
    | some p =>
      obtain ⟨ds, u⟩ := p
      rw [hm] at hv
      refine ⟨(ds, u), rfl, ?_⟩
      by_contra hgt
      simp at hgt
      simp only [if_pos hgt] at hv
      exact Except.noConfusion hv
  · rintro ⟨⟨ds, u⟩, hm, hle⟩
    exact ⟨_, hval s ds u hm hle⟩

/-- Witness for `parseSize_spec`: "10K" matches the regular expression
with digit group "10" and unit "K", the digit value fits in `int64`, and
the parse returns the wrapped product, which is 10240. -/
theorem parseSize_spec_witness :
    sizeRegexMatch "10K" = some ("10", "K") ∧
    digitsVal ("10" : String).data ≤ maxInt64 ∧
    parseSize "10K" =
      Except.ok (wrap64 ((digitsVal ("10" : String).data : Int) * (unitMultiplier "K" : Nat))) ∧
    wrap64 ((digitsVal ("10" : String).data : Int) * (unitMultiplier "K" : Nat)) = 10240 := by
  refine ⟨rfl, by decide, parseSize_spec.2.1 "10K" "10" "K" rfl (by decide), by rfl⟩

/-- C6 counterexample: "99999999999999999999" matches
`^(\d+)([BKMG])?$`, yet `parseSize` fails with the number error because
the digit value exceeds the `int64` range — so success is not equivalent
to matching the regular expression. -/
theorem parseSize_int64_range_counterexample :
    sizeRegexMatch "99999999999999999999" = some ("99999999999999999999", "") ∧
    parseSize "99999999999999999999" =
      Except.error "invalid size number: 99999999999999999999" := by
  exact ⟨rfl, rfl⟩

/-- C9: an input accepted by `parseSize` can wrap to a negative value:
the digit value of "9000000000G" fits in `int64`, but the multiplication
by 2^30 overflows, so the returned value is the negative two's-complement
wrap of the product rather than an error. -/
theorem parseSize_overflow_negative :
    parseSize "9000000000G" = Except.ok (-8783067657709551616) ∧
    (-8783067657709551616 : Int) < 0 ∧
    wrap64 ((9000000000 : Int) * 1073741824) = -8783067657709551616 := by
  refine ⟨by rfl, by norm_num, by rfl⟩

/-- C7: `convertToIMAPFlag` passes names starting with a protocol escape
marker through unchanged, maps the seven known names case-insensitively
to their canonical escaped forms, and passes every other name through
verbatim as a custom keyword. -/
theorem flag_normalization_spec :
    ∀ flag : String,
      ((hasPrefix flag "\\" ∨ hasPrefix flag "$") → convertToIMAPFlag flag = flag) ∧
      (¬(hasPrefix flag "\\" ∨ hasPrefix flag "$") →
        (toLowerGo flag = "seen" → convertToIMAPFlag flag = "\\Seen") ∧
        (toLowerGo flag = "answered" → convertToIMAPFlag flag = "\\Answered") ∧
        (toLowerGo flag = "flagged" → convertToIMAPFlag flag = "\\Flagged") ∧
        (toLowerGo flag = "deleted" → convertToIMAPFlag flag = "\\Deleted") ∧
        (toLowerGo flag = "draft" → convertToIMAPFlag flag = "\\Draft") ∧
        (toLowerGo flag = "recent" → convertToIMAPFlag flag = "\\Recent") ∧
        (toLowerGo flag = "important" → convertToIMAPFlag flag = "$Important") ∧
        (toLowerGo flag ∉ ["seen", "answered", "flagged", "deleted", "draft", "recent",
            "important"] →
          convertToIMAPFlag flag = flag)) := by
  intro flag
  constructor
  · intro h
    simp [convertToIMAPFlag, h]
  · intro h
    refine ⟨fun hl => by simp [convertToIMAPFlag, h, hl],
      fun hl => by simp [convertToIMAPFlag, h, hl],
      fun hl => by simp [convertToIMAPFlag, h, hl],
      fun hl => by simp [convertToIMAPFlag, h, hl],
      fun hl => by simp [convertToIMAPFlag, h, hl],
      fun hl => by simp [convertToIMAPFlag, h, hl],
      fun hl => by simp [convertToIMAPFlag, h, hl],
      fun hl => ?_⟩
    simp at hl
    obtain ⟨h1, h2, h3, h4, h5, h6, h7⟩ := hl
    simp [convertToIMAPFlag, h, h1, h2, h3, h4, h5, h6, h7]

/-- Witness for `flag_normalization_spec`: "seen" maps to the canonical
form, an already-escaped flag passes through, and a custom keyword passes
through verbatim. -/
theorem flag_normalization_spec_witness :
    (¬(hasPrefix "seen" "\\" ∨ hasPrefix "seen" "$") ∧ convertToIMAPFlag "seen" = "\\Seen") ∧
    ((hasPrefix "\\Flagged" "\\" ∨ hasPrefix "\\Flagged" "$") ∧
      convertToIMAPFlag "\\Flagged" = "\\Flagged") ∧
    (¬(hasPrefix "CustomTag" "\\" ∨ hasPrefix "CustomTag" "$") ∧
      convertToIMAPFlag "CustomTag" = "CustomTag") := by
  refine ⟨⟨by decide, ?_⟩, ⟨by decide, ?_⟩, ⟨by decide, ?_⟩⟩
  · exact ((flag_normalization_spec "seen").2 (by decide)).1 (by decide)
  · exact (flag_normalization_spec "\\Flagged").1 (by decide)
  · exact ((flag_normalization_spec "CustomTag").2 (by decide)).2.2.2.2.2.2.2 (by decide)

/-- C10: `ContentField.ShouldInclude` is total, and: in filter mode with
an empty type list it admits every media type (even though
`OutputConfig.Validate` rejects exactly that configuration); in any mode
other than text_only and filter — including the empty string and full —
it admits every media type; and in text_only mode it admits exactly the
media types with "text/plain" as a character-sequence prefix, not only
the exact type. -/
theorem shouldInclude_spec :
    (∀ (c : ContentField) (mediaType : String),
      (c.Mode = "filter" → c.Types = [] → c.ShouldInclude mediaType = true) ∧
      (c.Mode ≠ "text_only" → c.Mode ≠ "filter" → c.ShouldInclude mediaType = true) ∧
      (c.Mode = "text_only" →
        (c.ShouldInclude mediaType = true ↔ "text/plain".data <+: mediaType.data))) ∧
    OutputConfig.Validate
        { Fields := [FieldValue.field { Name := "mime_parts", Content := some { Mode := "filter" } }] } =
      Except.error "mime_parts types must be specified when mode is filter" := by
  constructor
  · intro c mediaType
    refine ⟨?_, ?_, ?_⟩
    · intro hm hts
      simp [ContentField.ShouldInclude, hm, hts]
    · intro h1 h2
      simp [ContentField.ShouldInclude, h1, h2]
    · intro hm
      simp [ContentField.ShouldInclude, hm, hasPrefix, List.isPrefixOf_iff_prefix]
  · rfl

/-- Witness for `shouldInclude_spec`: filter mode with no types admits an
arbitrary type; an unknown mode admits everything; text_only admits
"text/plain; charset=utf-8" (a strict extension of the exact type) and
rejects "text/html". -/
theorem shouldInclude_spec_witness :
    ContentField.ShouldInclude { Mode := "filter" } "application/pdf" = true ∧
    ContentField.ShouldInclude { Mode := "anything" } "image/png" = true ∧
    ContentField.ShouldInclude { Mode := "" } "image/png" = true ∧
    ContentField.ShouldInclude { Mode := "full" } "image/png" = true ∧
    (ContentField.ShouldInclude { Mode := "text_only" } "text/plain; charset=utf-8" = true ∧
      "text/plain; charset=utf-8" ≠ "text/plain") ∧
    ContentField.ShouldInclude { Mode := "text_only" } "text/html" = false := by
  refine ⟨?_, ?_, ?_, ?_, ⟨?_, by decide⟩, by decide⟩
  · exact ((shouldInclude_spec.1 { Mode := "filter" } "application/pdf").1 rfl rfl)
  · exact ((shouldInclude_spec.1 { Mode := "anything" } "image/png").2.1 (by decide) (by decide))
  · exact ((shouldInclude_spec.1 { Mode := "" } "image/png").2.1 (by decide) (by decide))
  · exact ((shouldInclude_spec.1 { Mode := "full" } "image/png").2.1 (by decide) (by decide))
  · exact ((shouldInclude_spec.1 { Mode := "text_only" } "text/plain; charset=utf-8").2.2
      rfl).mpr (by decide)

/-- Embeds step 3 of `FetchMessages`: the total found prefers the
server-reported count when positive, else the length of the returned
sequence-number list. -/
def computeTotalFound (seqNums : List Nat) (count : Nat) : Nat :=
  if count > 0 then count else seqNums.length

/-- The window-building loop of step 4 of `FetchMessages`
(`for i := startIdx; i >= endIdx; i--`): the elements of `seqNums` at
indices startIdx, startIdx-1, ..., endIdx, in that order. -/
def descIndexWindow (seqNums : List Nat) (startIdx endIdx : Nat) : List Nat :=
  (List.range (startIdx + 1 - endIdx)).map fun k => seqNums.getD (startIdx - k) 0

/-- Embeds step 4 of `FetchMessages`: limit = output limit when positive
and below the list length, else the list length; offset clamped to the
list length when it exceeds it; startIdx = length - 1 - offset,
endIdx = max(0, startIdx - limit + 1); the window is the elements from
startIdx down to endIdx when startIdx is a valid index, and `none` — the
empty-success `return nil, nil` logged as an invalid start index —
otherwise. -/
def selectWindow (seqNums : List Nat) (outLimit outOffset : Int) : Option (List Nat) :=
  let limit : Int :=
    if 0 < outLimit ∧ outLimit < (seqNums.length : Int) then outLimit
    else (seqNums.length : Int)
  let offset : Int :=
    if outOffset > (seqNums.length : Int) then (seqNums.length : Int) else outOffset
  let startIdx : Int := (seqNums.length : Int) - 1 - offset
  let endIdx : Int := if startIdx - limit + 1 < 0 then 0 else startIdx - limit + 1
  if 0 ≤ startIdx ∧ startIdx < (seqNums.length : Int) then
    some (descIndexWindow seqNums startIdx.toNat endIdx.toNat)
  else none

/-- An honest session's response to a sequence-number range fetch over a
mailbox of `M` messages: the sequence numbers lo..hi ascending, where a
stop of 0 is the protocol's `*` sentinel (the last message, M). -/
def honestFetchRange (M : Nat) (lo hi : Nat) : List Nat :=
  if hi = 0 then List.range' lo (M + 1 - lo) else List.range' lo (hi + 1 - lo)

/-- Embeds the count-only reconstruction of `FetchMessages` (the branch
taken when search returned no sequence numbers but a positive count):
limit = output limit when positive and below totalFound, else totalFound;
an offset exceeding totalFound returns `none` (the empty-success warning
path); otherwise a manual fetch over the sequence range
[max(1, totalFound-offset-limit+1), totalFound-offset] materialises
sequence numbers, which are reversed to newest-first order.  `fetchRange`
stands for the session's range fetch. -/
def reconstructSeqNums (fetchRange : Nat → Nat → List Nat) (totalFound : Nat)
    (outLimit outOffset : Int) : Option (List Nat) :=
  let limit : Int :=
    if 0 < outLimit ∧ outLimit < (totalFound : Int) then outLimit else (totalFound : Int)
  if outOffset > (totalFound : Int) then none
  else
    let startSeq : Int := (totalFound : Int) - outOffset
    let endSeq : Int := startSeq - limit + 1
    let endSeq : Int := if endSeq < 1 then 1 else endSeq
    some ((fetchRange endSeq.toNat startSeq.toNat).reverse)

/-- Embeds the sequence-number selection of `FetchMessages` (steps 3-4)
against an honest session: search returned `searchSeqNums` (ascending)
and reported `searchCount`; the result is the sequence of numbers added
to the fetch set, in loop order.  The empty list covers each of the
code's empty-success `return nil, nil` paths; the source's only error
paths there are protocol failures, which the honest-session model
excludes. -/
def fetchSeqNumSelection (fetchRange : Nat → Nat → List Nat)
    (searchSeqNums : List Nat) (searchCount : Nat) (outLimit outOffset : Int) : List Nat :=
  let totalFound := computeTotalFound searchSeqNums searchCount
  if totalFound = 0 then []
  else
    (((if searchSeqNums.isEmpty then
        reconstructSeqNums fetchRange totalFound outLimit outOffset
      else some searchSeqNums).bind
      fun seqNums => selectWindow seqNums outLimit outOffset).getD [])

/-- The pagination window in the spec's words: startIdx = L - 1 - offset,
endIdx = max(0, startIdx - limit + 1), the window is list[endIdx..startIdx]
iterated newest-first, and an offset reaching L yields the empty window. -/
def specWindow (list : List Nat) (limit offset : Int) : List Nat :=
  if (list.length : Int) ≤ offset then []
  else
    let startIdx : Int := (list.length : Int) - 1 - offset
    let endIdx : Int := max 0 (startIdx - limit + 1)
    descIndexWindow list startIdx.toNat endIdx.toNat

theorem selectWindow_eq_specWindow (list : List Nat) (l o : Int)
    (hl : 0 < l) (ho : 0 ≤ o) :
    (selectWindow list l o).getD [] = specWindow list l o := by
  simp only [selectWindow, specWindow]
  split_ifs <;>
    first
      | rfl
      | (exfalso; omega)
      | (simp only [Option.getD_some]; congr 1 <;> omega)

/-- C2: for a non-empty ascending sequence-number list returned by search
and a pagination spec with positive limit and nonnegative offset, the
fetch selects exactly the window list[endIdx..startIdx] with
startIdx = L-1-offset and endIdx = max(0, startIdx-limit+1), iterated
newest-first (`specWindow`), and an offset at or beyond L yields the
empty result through the total (error-free) selection.  In particular
identifiers [1..20] with limit 5 and offset 3 give [17,16,15,14,13], and
offset 25 gives the empty result. -/
theorem pagination_window_spec :
    (∀ (fetchRange : Nat → Nat → List Nat) (list : List Nat) (count : Nat) (l o : Int),
      list ≠ [] → 0 < l → 0 ≤ o →
      fetchSeqNumSelection fetchRange list count l o = specWindow list l o) ∧
    fetchSeqNumSelection (honestFetchRange 20) (List.range' 1 20) 0 5 3 =
      [17, 16, 15, 14, 13] ∧
    fetchSeqNumSelection (honestFetchRange 20) (List.range' 1 20) 0 5 25 = [] := by
  refine ⟨?_, by decide, by decide⟩
  intro fr list count l o hne hl ho
  obtain ⟨a, as, rfl⟩ : ∃ a as, list = a :: as := by
    cases list with
    | nil => exact absurd rfl hne
    | cons a as => exact ⟨a, as, rfl⟩
  have h1 : computeTotalFound (a :: as) count ≠ 0 := by
    unfold computeTotalFound
    split_ifs <;> simp <;> omega
  have h2 := selectWindow_eq_specWindow (a :: as) l o hl ho
  unfold fetchSeqNumSelection
  rw [if_neg h1]
  simp only [List.isEmpty_cons, Bool.false_eq_true, if_false, Option.some_bind]
  exact h2

/-- Witness for `pagination_window_spec`: the general window statement
applied at the concrete list [1..20], limit 5, offset 3. -/
theorem pagination_window_spec_witness :
    (List.range' 1 20 ≠ []) ∧
    fetchSeqNumSelection (honestFetchRange 20) (List.range' 1 20) 0 5 3 =
      specWindow (List.range' 1 20) 5 3 ∧
    specWindow (List.range' 1 20) 5 3 = [17, 16, 15, 14, 13] := by
  exact ⟨by decide,
    pagination_window_spec.1 (honestFetchRange 20) (List.range' 1 20) 0 5 3
      (by decide) (by decide) (by decide),
    by decide⟩

/-- C3 counterexample: identifiers absent, server count 20, limit 5,
offset 3.  The claim expects the fetched messages to be exactly
[17,16,15,14,13]; the code fetches only {16, 17}. -/
theorem count_only_double_pagination_counterexample :
    fetchSeqNumSelection (honestFetchRange 20) [] 20 5 3 = [16, 17] ∧
    fetchSeqNumSelection (honestFetchRange 20) [] 20 5 3 ≠ [17, 16, 15, 14, 13] ∧
    (15 : Nat) ∉ fetchSeqNumSelection (honestFetchRange 20) [] 20 5 3 := by
  exact ⟨by decide, by decide, by decide⟩

/-- C3 (amended): in the count-only case (no sequence numbers, positive
reported count C) with positive limit and 0 ≤ offset < C, the manual
reconstruction produces exactly the window the claim expects — sequence
numbers C-offset down to max(1, C-offset-limit+1), newest first — but
step 4 then applies limit and offset a second time to this already
windowed, newest-first list (its arithmetic assumes an ascending list),
so the messages finally fetched are the window of the reconstructed list,
not the reconstructed list itself: for C=20, limit=5, offset=3 the final
set is [16,17], not [17,16,15,14,13].  (At offset = C the manual range
degenerates to the sentinel fetch 1:*, outside this statement.) -/
theorem count_only_window_spec :
    ∀ (C l o : Nat), 0 < C → 0 < l → o < C →
      reconstructSeqNums (honestFetchRange C) C (l : Int) (o : Int) =
        some ((List.range' (max 1 (C - o + 1 - min l C))
          (C - o + 1 - max 1 (C - o + 1 - min l C))).reverse) ∧
      fetchSeqNumSelection (honestFetchRange C) [] C (l : Int) (o : Int) =
        specWindow ((List.range' (max 1 (C - o + 1 - min l C))
          (C - o + 1 - max 1 (C - o + 1 - min l C))).reverse) (l : Int) (o : Int) := by
  intro C l o hC hl ho
  have hrec : reconstructSeqNums (honestFetchRange C) C (l : Int) (o : Int) =
      some ((List.range' (max 1 (C - o + 1 - min l C))
        (C - o + 1 - max 1 (C - o + 1 - min l C))).reverse) := by
    unfold reconstructSeqNums honestFetchRange
    rw [if_neg (by push_cast; omega)]
    dsimp only
    split_ifs
    all_goals
      first
        | (exfalso; omega)
        | (congr 3 <;> omega)
        | (congr 2 <;> omega)
  refine ⟨hrec, ?_⟩
  have h2 := selectWindow_eq_specWindow
    ((List.range' (max 1 (C - o + 1 - min l C))
      (C - o + 1 - max 1 (C - o + 1 - min l C))).reverse) (l : Int) (o : Int)
    (by exact_mod_cast hl) (Int.natCast_nonneg o)
  have htf : computeTotalFound ([] : List Nat) C = C := by
    unfold computeTotalFound
    rw [if_pos hC]
  unfold fetchSeqNumSelection
  rw [htf]
  rw [if_neg (by omega)]
  simp only [List.isEmpty_nil, if_true]
  rw [hrec]
  simp only [Option.some_bind]
  exact h2

/-- Witness for `count_only_window_spec`: C=20, limit=5, offset=3 — the
reconstruction yields [17,16,15,14,13] and the final selection re-windows
it to [16,17]. -/
theorem count_only_window_spec_witness :
    reconstructSeqNums (honestFetchRange 20) 20 (5 : Int) (3 : Int) =
      some [17, 16, 15, 14, 13] ∧
    fetchSeqNumSelection (honestFetchRange 20) [] 20 (5 : Int) (3 : Int) =
      specWindow [17, 16, 15, 14, 13] (5 : Int) (3 : Int) ∧
    specWindow [17, 16, 15, 14, 13] (5 : Int) (3 : Int) = [16, 17] := by
  have h := count_only_window_spec 20 5 3 (by decide) (by decide) (by decide)
  have hR : (List.range' (max 1 (20 - 3 + 1 - min 5 20))
      (20 - 3 + 1 - max 1 (20 - 3 + 1 - min 5 20))).reverse = [17, 16, 15, 14, 13] := by decide
  refine ⟨?_, ?_, by decide⟩
  · rw [← hR]
    exact_mod_cast h.1
  · rw [← hR]
    exact_mod_cast h.2

/-- Modelled from the spec: `MimePartMetadata` — the per-part requirement
record (§3 MimePartRequirement: part-path, media type/subtype, filename,
charset, fetch descriptor); its struct declaration is not among the
provided sources, and the fields here are the ones the batched-content
pass reads (`Path`, `Type`, `Subtype`, `Filename`, `Params["charset"]`).
The protocol fetch descriptor plays no role in demultiplexing and is
omitted. -/
structure MimePartMetadata where
  Path : List Nat
  Type' : String := ""
  Subtype : String := ""
  Filename : String := ""
  Charset : String := ""
  deriving Repr, DecidableEq

/-- Modelled from the spec: `MimePart` — the assembled part record
`{type, subtype, content (decoded string), size, charset, filename}`; its
struct declaration is not among the provided sources, and the fields are
the ones `FetchMessages` populates.  `Size` is the length of the content
actually stored, as in `uint32(len(content))`. -/
structure MimePart where
  Type' : String
  Subtype : String
  Content : String
  Size : Nat
  Charset : String
  Filename : String
  deriving Repr, DecidableEq

/-- Modelled from the spec: the assembled message (§3 DomainMessage),
reduced to the fields the batched-content pass of `FetchMessages`
populates — sequence number, MIME part list, total-match count; the
envelope fields assembled by `NewEmailMessageFromIMAP` are outside the
modelled fragment, and a nil parts argument yields an empty parts list. -/
structure EmailMessage where
  SeqNum : Nat
  MimeParts : List MimePart := []
  TotalCount : Nat := 0
  deriving Repr, DecidableEq

/-- One entry of the `messagesToFetch` list of `FetchMessages`: a message
from the structure fetch together with its required part metadata. -/
structure MessageFetchInfo where
  SeqNum : Nat
  MimePartMetadata : List MimePartMetadata
  deriving Repr, DecidableEq

/-- The grouping pass of `FetchMessages` over the batch-fetch results: the
fragments whose composite (sequence-number, part-path) key names this
message, keyed by part path, or `none` when the response holds no
fragment for it at all.  The composite string key "%d:%v" of the source
is embedded as the (sequence-number, path) pair it encodes. -/
def messageContent (contentMap : List ((Nat × List Nat) × String)) (seqNum : Nat) :
    Option (List (List Nat × String)) :=
  let entries := (contentMap.filter fun e => e.1.1 = seqNum).map fun e => (e.1.2, e.2)
  if entries.isEmpty then none else some entries

/-- Path lookup in one message's content group. -/
def lookupPath (msgContent : List (List Nat × String)) (path : List Nat) : Option String :=
  (msgContent.find? fun e => e.1 = path).map fun e => e.2

/-- The part-assembly loop of `FetchMessages`: for each required part,
look its content up by path; a fragment missing from the response logs a
warning and the loop `continue`s, so the part is skipped and no record is
produced for it. -/
def buildMimeParts (metadata : List MimePartMetadata)
    (msgContent : List (List Nat × String)) : List MimePart :=
  metadata.filterMap fun m =>
    (lookupPath msgContent m.Path).map fun content =>
      { Type' := m.Type', Subtype := m.Subtype, Content := content,
        Size := content.length, Charset := m.Charset, Filename := m.Filename }

/-- The third pass of `FetchMessages`: every message of the batch is
assembled into exactly one `EmailMessage` — with an empty parts list when
the response holds no fragment for it, and with `buildMimeParts`
otherwise — carrying the total count; no case raises an error. -/
def processBatchResults (totalFound : Nat) (msgs : List MessageFetchInfo)
    (contentMap : List ((Nat × List Nat) × String)) : List EmailMessage :=
  msgs.map fun info =>
    match messageContent contentMap info.SeqNum with
    | none => { SeqNum := info.SeqNum, MimeParts := [], TotalCount := totalFound }
    | some mc =>
      { SeqNum := info.SeqNum, MimeParts := buildMimeParts info.MimePartMetadata mc,
        TotalCount := totalFound }

/-- C4 counterexample: two required parts, the batched response carrying
only the first.  The claim expects the assembled message to contain a
part with empty content for the missing (sequence-number, part-path) key;
the code's loop skips the missing part, so the result holds one part, not
two. -/
theorem missing_fragment_counterexample :
    buildMimeParts
        [{ Path := [1], Type' := "text", Subtype := "plain" },
         { Path := [2], Type' := "text", Subtype := "html" }]
        [([1], "hello")] =
      [{ Type' := "text", Subtype := "plain", Content := "hello", Size := 5,
         Charset := "", Filename := "" }] ∧
    buildMimeParts
        [{ Path := [1], Type' := "text", Subtype := "plain" },
         { Path := [2], Type' := "text", Subtype := "html" }]
        [([1], "hello")] ≠
      [{ Type' := "text", Subtype := "plain", Content := "hello", Size := 5,
         Charset := "", Filename := "" },
       { Type' := "text", Subtype := "html", Content := "", Size := 0,
         Charset := "", Filename := "" }] := by
  exact ⟨by decide, by decide⟩

/-- C4 (amended): when the batched content response omits a required
fragment, the assembled message omits that part entirely (the loop skips
it) rather than including a part with an empty content string; every
produced part's content is found in the response under a required part's
path, parts are produced exactly for the metadata entries whose path is
present, and the batch pass assembles every message without error — one
output message per input message, a message with no fragments at all
getting an empty parts list. -/
theorem missing_fragment_spec :
    (∀ (metadata : List MimePartMetadata) (mc : List (List Nat × String)),
      (buildMimeParts metadata mc).length =
        (metadata.filter fun m => (lookupPath mc m.Path).isSome).length) ∧
    (∀ (metadata : List MimePartMetadata) (mc : List (List Nat × String)) (p : MimePart),
      p ∈ buildMimeParts metadata mc →
      ∃ m, m ∈ metadata ∧ lookupPath mc m.Path = some p.Content) ∧
    (∀ (totalFound : Nat) (msgs : List MessageFetchInfo)
      (contentMap : List ((Nat × List Nat) × String)),
      (processBatchResults totalFound msgs contentMap).length = msgs.length ∧
      ∀ info ∈ msgs, messageContent contentMap info.SeqNum = none →
        ({ SeqNum := info.SeqNum, MimeParts := [], TotalCount := totalFound } : EmailMessage) ∈
          processBatchResults totalFound msgs contentMap) := by
  refine ⟨?_, ?_, ?_⟩
  · intro metadata mc
    induction metadata with
    | nil => rfl
    | cons m rest ih =>
      simp only [buildMimeParts, List.filterMap_cons, List.filter_cons] at *
      cases h : lookupPath mc m.Path with
      | none => simp [h, ih]
      | some c => simp [h, ih]
  · intro metadata mc p hp
    simp only [buildMimeParts, List.mem_filterMap] at hp
    obtain ⟨m, hm, hmap⟩ := hp
    cases h : lookupPath mc m.Path with
    | none => rw [h] at hmap; simp at hmap
    | some c =>
      rw [h] at hmap
      simp at hmap
      refine ⟨m, hm, ?_⟩
      rw [h, ← hmap]
  · intro totalFound msgs contentMap
    refine ⟨by simp [processBatchResults], ?_⟩
    intro info hinfo hnone
    simp only [processBatchResults, List.mem_map]
    exact ⟨info, hinfo, by rw [hnone]⟩

/-- Witness for `missing_fragment_spec`, at the counterexample's input:
one of two parts present — the part count equals the count of present
paths (one), the produced part's content is found under a required path,
and a two-message batch with one fragmentless message assembles both
messages, the fragmentless one with an empty parts list. -/
theorem missing_fragment_spec_witness :
    (buildMimeParts
        [{ Path := [1], Type' := "text", Subtype := "plain" },
         { Path := [2], Type' := "text", Subtype := "html" }]
        [([1], "hello")]).length =
      ([({ Path := [1], Type' := "text", Subtype := "plain" } : MimePartMetadata),
        { Path := [2], Type' := "text", Subtype := "html" }].filter fun m =>
          (lookupPath [([1], "hello")] m.Path).isSome).length ∧
    (∃ m, m ∈ [({ Path := [1], Type' := "text", Subtype := "plain" } : MimePartMetadata),
        { Path := [2], Type' := "text", Subtype := "html" }] ∧
      lookupPath [([1], "hello")] m.Path =
        some ({ Type' := "text", Subtype := "plain", Content := "hello", Size := 5, Charset := "", Filename := "" } : MimePart).Content) ∧
    (processBatchResults 7
        [{ SeqNum := 4, MimePartMetadata := [{ Path := [1] }] },
         { SeqNum := 9, MimePartMetadata := [{ Path := [1] }] }]
        [((4, [1]), "hello")]).length = 2 ∧
    ({ SeqNum := 9, MimeParts := [], TotalCount := 7 } : EmailMessage) ∈
      processBatchResults 7
        [{ SeqNum := 4, MimePartMetadata := [{ Path := [1] }] },
         { SeqNum := 9, MimePartMetadata := [{ Path := [1] }] }]
        [((4, [1]), "hello")] := by
  refine ⟨?_, ?_, ?_, ?_⟩
  · exact missing_fragment_spec.1
      [{ Path := [1], Type' := "text", Subtype := "plain" },
       { Path := [2], Type' := "text", Subtype := "html" }]
      [([1], "hello")]
  · exact missing_fragment_spec.2.1
      [{ Path := [1], Type' := "text", Subtype := "plain" },
       { Path := [2], Type' := "text", Subtype := "html" }]
      [([1], "hello")]
      { Type' := "text", Subtype := "plain", Content := "hello", Size := 5, Charset := "", Filename := "" }
      (by decide)
  · exact (missing_fragment_spec.2.2 7
      [{ SeqNum := 4, MimePartMetadata := [{ Path := [1] }] },
       { SeqNum := 9, MimePartMetadata := [{ Path := [1] }] }]
      [((4, [1]), "hello")]).1
  · exact (missing_fragment_spec.2.2 7
      [{ SeqNum := 4, MimePartMetadata := [{ Path := [1] }] },
       { SeqNum := 9, MimePartMetadata := [{ Path := [1] }] }]
      [((4, [1]), "hello")]).2
      { SeqNum := 9, MimePartMetadata := [{ Path := [1] }] }
      (by decide) (by decide)

end Smailnail
